import Mathlib

/-!
Formal model of the manifest-based incremental build cache implemented in
`experiments/cache.py`, together with its callers in `experiments/run_experiments.py`
and `experiments/plot_results.py`.

The embedding is shallow and executable:

* Python values passed to `json.dumps` are modelled by `PyVal` (an `obj` leaf stands
  for a value that is not JSON-serializable; `json.dumps(..., default=str)` turns it
  into its `str()` text).
* `dumps` models `json.dumps(value, sort_keys=True, default=str)` with the default
  separators and `ensure_ascii=True` escaping.
* SHA-256 is implemented in full, on byte lists, and `Manifest.config_hash` is the
  first 16 hex characters of the digest of the canonical serialization, as in the
  source.
* The manifest is an association list keyed by relative path (Python `dict` keeps
  one entry per key; insertion order is preserved on update, appends on new keys).
* The file system is an oracle `FS : String → FileState`; `locked` marks a file
  whose deletion raises (permissions), which models `Path.unlink` failure.
* `Manifest.load` is modelled over the parsed content of the persisted file, with
  Python exceptions made explicit in `Except`.
-/

set_option maxRecDepth 40000

/-! ## Strings: code-point comparison, as Python compares `str` -/

/-- Lexicographic less-or-equal on character lists by code point, matching the
order Python uses for `sorted()` over strings. -/
def strLeB : List Char → List Char → Bool
  | [], _ => true
  | _ :: _, [] => false
  | a :: as, b :: bs =>
      if a.toNat < b.toNat then true
      else if b.toNat < a.toNat then false
      else strLeB as bs

/-- Order on strings used by `sorted(...)` in the source. -/
def strLe (a b : String) : Prop := strLeB a.data b.data = true

instance : DecidableRel strLe := fun a b => by unfold strLe; infer_instance

/-- Order on keyed pairs used by `json.dumps(..., sort_keys=True)`: compare keys only. -/
def keyLe {α : Type} (a b : String × α) : Prop := strLeB a.1.data b.1.data = true

instance {α : Type} : DecidableRel (keyLe (α := α)) := fun a b => by unfold keyLe; infer_instance

/-- Sort an association list by key, as `sort_keys=True` does. -/
def sortByKey {α : Type} (l : List (String × α)) : List (String × α) :=
  List.insertionSort keyLe l

/-- Sort a list of paths, as `sorted(orphans)` does. -/
def sortStrings (l : List String) : List String :=
  List.insertionSort strLe l

/-! ## Python values and canonical JSON serialization -/

/-- A Python value as it can appear among the keyword arguments of
`Manifest.config_hash`.  The `obj` leaf is a value that is not JSON-serializable
(for example a `Path`); `strRepr` is its `str()` text. -/
inductive PyVal where
  | null : PyVal
  | bool (b : Bool) : PyVal
  | int (n : Int) : PyVal
  | str (s : String) : PyVal
  | list (xs : List PyVal) : PyVal
  | dict (kvs : List (String × PyVal)) : PyVal
  | obj (strRepr : String) : PyVal

/-- Hex digit characters, lowercase, as produced by `hexdigest()`. -/
def hexChar : Nat → Char
  | 0 => '0' | 1 => '1' | 2 => '2' | 3 => '3' | 4 => '4' | 5 => '5' | 6 => '6' | 7 => '7'
  | 8 => '8' | 9 => '9' | 10 => 'a' | 11 => 'b' | 12 => 'c' | 13 => 'd' | 14 => 'e' | _ => 'f'

def hexDigits : List Char := (List.range 16).map hexChar

/-- Four hex digits of a code point, for a JSON `\uXXXX` escape. -/
def hex4 (n : Nat) : List Char :=
  [hexChar (n / 4096 % 16), hexChar (n / 256 % 16), hexChar (n / 16 % 16), hexChar (n % 16)]

/-- JSON escaping of one character, as the `ensure_ascii=True` encoder does:
printable ASCII other than quote and backslash is literal, the usual short
escapes apply, everything else becomes `\uXXXX` (with surrogate pairs above
the BMP). -/
def escChar (c : Char) : List Char :=
  if c = '"' then ['\\', '"']
  else if c = '\\' then ['\\', '\\']
  else if c.toNat = 8 then ['\\', 'b']
  else if c.toNat = 9 then ['\\', 't']
  else if c.toNat = 10 then ['\\', 'n']
  else if c.toNat = 12 then ['\\', 'f']
  else if c.toNat = 13 then ['\\', 'r']
  else if 32 ≤ c.toNat && c.toNat ≤ 126 then [c]
  else if c.toNat < 65536 then '\\' :: 'u' :: hex4 c.toNat
  else
    '\\' :: 'u' :: hex4 (55296 + (c.toNat - 65536) / 1024) ++
      ('\\' :: 'u' :: hex4 (56320 + (c.toNat - 65536) % 1024))

/-- A JSON string literal: quotes around the escaped characters. -/
def jsonQuote (s : String) : String :=
  String.mk ('"' :: s.data.flatMap escChar ++ ['"'])

mutual

/-- `json.dumps(v, sort_keys=True, default=str)` with the default separators
`", "` and `": "`.  Mapping items are serialized and then ordered by key; a
non-serializable leaf is replaced by its `str()` text, which is what
`default=str` does. -/
def dumps : PyVal → String
  | .null => "null"
  | .bool true => "true"
  | .bool false => "false"
  | .int n => toString n
  | .str s => jsonQuote s
  | .list xs => "[" ++ String.intercalate ", " (dumpsList xs) ++ "]"
  | .dict kvs =>
      "\x7b" ++ String.intercalate ", "
        ((sortByKey (dumpsItems kvs)).map (fun p => jsonQuote p.1 ++ ": " ++ p.2)) ++ "\x7d"
  | .obj s => jsonQuote s

def dumpsList : List PyVal → List String
  | [] => []
  | x :: xs => dumps x :: dumpsList xs

def dumpsItems : List (String × PyVal) → List (String × String)
  | [] => []
  | (k, v) :: t => (k, dumps v) :: dumpsItems t

end

mutual

/-- Key-sorted canonical form of a value: every mapping is recursively sorted by
key.  Two values are structurally equal after key-sorting exactly when their
canonical forms coincide. -/
def canon : PyVal → PyVal
  | .null => .null
  | .bool b => .bool b
  | .int n => .int n
  | .str s => .str s
  | .list xs => .list (canonList xs)
  | .dict kvs => .dict (sortByKey (canonItems kvs))
  | .obj s => .obj s

def canonList : List PyVal → List PyVal
  | [] => []
  | x :: xs => canon x :: canonList xs

def canonItems : List (String × PyVal) → List (String × PyVal)
  | [] => []
  | (k, v) :: t => (k, canon v) :: canonItems t

end

mutual

/-- Whether a value is JSON-representable (no non-serializable leaf anywhere). -/
def jsonOk : PyVal → Bool
  | .null => true
  | .bool _ => true
  | .int _ => true
  | .str _ => true
  | .list xs => jsonOkList xs
  | .dict kvs => jsonOkItems kvs
  | .obj _ => false

def jsonOkList : List PyVal → Bool
  | [] => true
  | x :: xs => jsonOk x && jsonOkList xs

def jsonOkItems : List (String × PyVal) → Bool
  | [] => true
  | (_, v) :: t => jsonOk v && jsonOkItems t

end

/-! ## SHA-256 over byte lists (FIPS 180-4) -/

def w32 (n : Nat) : Nat := n % 4294967296

def rotr32 (n x : Nat) : Nat := w32 ((x >>> n) ||| (x <<< (32 - n)))

def bigSigma0 (x : Nat) : Nat := (rotr32 2 x) ^^^ (rotr32 13 x) ^^^ (rotr32 22 x)
def bigSigma1 (x : Nat) : Nat := (rotr32 6 x) ^^^ (rotr32 11 x) ^^^ (rotr32 25 x)
def smallSigma0 (x : Nat) : Nat := (rotr32 7 x) ^^^ (rotr32 18 x) ^^^ (x >>> 3)
def smallSigma1 (x : Nat) : Nat := (rotr32 17 x) ^^^ (rotr32 19 x) ^^^ (x >>> 10)
def chf (x y z : Nat) : Nat := (x &&& y) ^^^ ((x ^^^ 4294967295) &&& z)
def majf (x y z : Nat) : Nat := (x &&& y) ^^^ (x &&& z) ^^^ (y &&& z)

def K256 : List Nat :=
  [1116352408, 1899447441, 3049323471, 3921009573, 961987163, 1508970993,
   2453635748, 2870763221, 3624381080, 310598401, 607225278, 1426881987,
   1925078388, 2162078206, 2614888103, 3248222580, 3835390401, 4022224774,
   264347078, 604807628, 770255983, 1249150122, 1555081692, 1996064986,
   2554220882, 2821834349, 2952996808, 3210313671, 3336571891, 3584528711,
   113926993, 338241895, 666307205, 773529912, 1294757372, 1396182291,
   1695183700, 1986661051, 2177026350, 2456956037, 2730485921, 2820302411,
   3259730800, 3345764771, 3516065817, 3600352804, 4094571909, 275423344,
   430227734, 506948616, 659060556, 883997877, 958139571, 1322822218,
   1537002063, 1747873779, 1955562222, 2024104815, 2227730452, 2361852424,
   2428436474, 2756734187, 3204031479, 3329325298]

/-- The eight running hash words. -/
structure Hv where
  h0 : Nat
  h1 : Nat
  h2 : Nat
  h3 : Nat
  h4 : Nat
  h5 : Nat
  h6 : Nat
  h7 : Nat

def initHv : Hv :=
  ⟨1779033703, 3144134277, 1013904242, 2773480762,
   1359893119, 2600822924, 528734635, 1541459225⟩

/-- The eight working variables of the compression loop. -/
structure Wv where
  a : Nat
  b : Nat
  c : Nat
  d : Nat
  e : Nat
  f : Nat
  g : Nat
  h : Nat

def compressStep (st : Wv) (kw : Nat × Nat) : Wv :=
  let t1 := w32 (st.h + bigSigma1 st.e + chf st.e st.f st.g + kw.1 + kw.2)
  let t2 := w32 (bigSigma0 st.a + majf st.a st.b st.c)
  ⟨w32 (t1 + t2), st.a, st.b, st.c, w32 (st.d + t1), st.e, st.f, st.g⟩

def wordsOf : List Nat → List Nat
  | b0 :: b1 :: b2 :: b3 :: rest => (b0 * 16777216 + b1 * 65536 + b2 * 256 + b3) :: wordsOf rest
  | _ => []

def schedExt : Nat → List Nat → List Nat
  | 0, w => w
  | fuel + 1, w =>
      let t := w.length
      let x := w32 (smallSigma1 (w.getD (t - 2) 0) + w.getD (t - 7) 0 +
        smallSigma0 (w.getD (t - 15) 0) + w.getD (t - 16) 0)
      schedExt fuel (w ++ [x])

def processBlock (hv : Hv) (block : List Nat) : Hv :=
  let w := schedExt 48 (wordsOf block)
  let st0 : Wv := ⟨hv.h0, hv.h1, hv.h2, hv.h3, hv.h4, hv.h5, hv.h6, hv.h7⟩
  let st := (K256.zip w).foldl compressStep st0
  ⟨w32 (hv.h0 + st.a), w32 (hv.h1 + st.b), w32 (hv.h2 + st.c), w32 (hv.h3 + st.d),
   w32 (hv.h4 + st.e), w32 (hv.h5 + st.f), w32 (hv.h6 + st.g), w32 (hv.h7 + st.h)⟩

def be64 (n : Nat) : List Nat :=
  [n >>> 56 % 256, n >>> 48 % 256, n >>> 40 % 256, n >>> 32 % 256,
   n >>> 24 % 256, n >>> 16 % 256, n >>> 8 % 256, n % 256]

def be32 (n : Nat) : List Nat :=
  [n >>> 24 % 256, n >>> 16 % 256, n >>> 8 % 256, n % 256]

def padMsg (msg : List Nat) : List Nat :=
  msg ++ [128] ++ List.replicate ((119 - msg.length % 64) % 64) 0 ++ be64 (8 * msg.length)

def toBlocks : Nat → List Nat → List (List Nat)
  | 0, _ => []
  | k + 1, l => l.take 64 :: toBlocks k (l.drop 64)

def digestBytes (hv : Hv) : List Nat :=
  [hv.h0, hv.h1, hv.h2, hv.h3, hv.h4, hv.h5, hv.h6, hv.h7].flatMap be32

def sha256 (msg : List Nat) : List Nat :=
  let padded := padMsg msg
  digestBytes ((toBlocks (padded.length / 64) padded).foldl processBlock initHv)

def hexOfBytes (l : List Nat) : List Char :=
  l.flatMap (fun b => [hexChar (b / 16), hexChar (b % 16)])

/-- UTF-8 bytes of a character sequence, as `str.encode()` produces. -/
def utf8Bytes : List Char → List Nat
  | [] => []
  | c :: cs =>
      let n := c.toNat
      (if n < 128 then [n]
       else if n < 2048 then [192 + n / 64, 128 + n % 64]
       else if n < 65536 then [224 + n / 4096, 128 + n / 64 % 64, 128 + n % 64]
       else [240 + n / 262144, 128 + n / 4096 % 64, 128 + n / 64 % 64, 128 + n % 64]) ++
        utf8Bytes cs

/-! ## The manifest (`experiments/cache.py`) -/

/-- One manifest record (`@dataclass ManifestEntry`): the fingerprint of the
effective input that last produced the output, and the production timestamp. -/
structure ManifestEntry where
  config_hash : String
  produced_at : String
deriving DecidableEq

/-- The manifest (`@dataclass Manifest`): a version, the fingerprint of the
external engine build inputs, and one entry per output identity.  A Python
`dict` is modelled by an association list with at most one entry per key;
lookup takes the first match, update rewrites in place, new keys append. -/
structure Manifest where
  version : Int := 1
  binary_hash : String := ""
  entries : List (String × ManifestEntry) := []
deriving DecidableEq

/-- `entries.get(rel_path)`. -/
def dictGet (entries : List (String × ManifestEntry)) (k : String) : Option ManifestEntry :=
  match entries.find? (fun p => p.1 == k) with
  | some p => some p.2
  | none => none

/-- `entries[rel_path] = e`: replace in place when the key is present, append
otherwise, as a Python `dict` does. -/
def dictSet : List (String × ManifestEntry) → String → ManifestEntry →
    List (String × ManifestEntry)
  | [], k, e => [(k, e)]
  | p :: t, k, e => if p.1 == k then (k, e) :: t else p :: dictSet t k e

/-- `Manifest.config_hash(**kwargs)`: SHA-256 of the canonical JSON of the
keyword arguments, truncated to 16 hex characters.  `kwargs` is the keyword
dictionary. -/
def Manifest.config_hash (kwargs : List (String × PyVal)) : String :=
  String.mk ((hexOfBytes (sha256 (utf8Bytes (dumps (PyVal.dict kwargs)).data))).take 16)

/-- State of one path on disk.  `locked` is a file that exists but whose
deletion raises (for example a permissions error). -/
inductive FileState where
  | absent : FileState
  | present : FileState
  | locked : FileState
deriving DecidableEq

/-- The file system below `BASE_DIR`, as an oracle from relative path to state. -/
def FS : Type := String → FileState

/-- `(BASE_DIR / rel_path).exists()`. -/
def fsExists (fs : FS) (rel_path : String) : Bool :=
  match fs rel_path with
  | .absent => false
  | .present => true
  | .locked => true

/-- `Manifest.is_fresh`: false when there is no entry or the stored hash
differs from the expected one; otherwise whatever `(BASE_DIR/rel_path).exists()`
reports.  Note that the existence check is applied to every identity. -/
def Manifest.is_fresh (m : Manifest) (rel_path expected_hash : String) (fs : FS) : Bool :=
  match dictGet m.entries rel_path with
  | none => false
  | some entry =>
      if entry.config_hash != expected_hash then false
      else fsExists fs rel_path

/-- `Manifest.record`: upsert an entry with the given fingerprint.  The
`datetime.now` timestamp is passed explicitly. -/
def Manifest.record (m : Manifest) (rel_path config_hash produced_at : String) : Manifest :=
  { m with entries := dictSet m.entries rel_path ⟨config_hash, produced_at⟩ }

/-- `Manifest.hash_of`: the stored fingerprint, or the empty sentinel. -/
def Manifest.hash_of (m : Manifest) (rel_path : String) : String :=
  match dictGet m.entries rel_path with
  | some entry => entry.config_hash
  | none => ""

/-- `Manifest.remove`: `entries.pop(rel_path, None)`. -/
def Manifest.remove (m : Manifest) (rel_path : String) : Manifest :=
  { m with entries := m.entries.filter (fun p => !(p.1 == rel_path)) }

/-! ## Expected outputs and the outputs the stage drivers record -/

/-- The configuration fields that `compute_expected_files` and the stage
drivers in `run_experiments.py` read.  `ces_seeds` is `none` when the `ces`
table has no `seeds` key; the Boolean fields are the truthiness of
`cfg.get("sweeps")`, `cfg.get("mass_optimize")` and `cfg.get("consistency")`. -/
structure Config where
  training_seeds : List Int
  ces_seeds : Option (List Int)
  random_weights : Nat
  sweeps : Bool
  mass_optimize : Bool
  consistency : Bool

/-- Python `f"{i:02d}"` for a nonnegative `i`. -/
def format02 (i : Nat) : String :=
  if i < 10 then "0" ++ toString i else toString i

/-- Python `str.replace("-", "_")` for these parameter names. -/
def dashToUnderscore (s : String) : String :=
  String.mk (s.data.map (fun c => if c = '-' then '_' else c))

/-- `compute_expected_files(cfg)`: every output path the current configuration
would produce, following the naming rules stage by stage. -/
def compute_expected_files (cfg : Config) : List String :=
  (cfg.training_seeds.flatMap (fun seed =>
    ["weights/hsa/seed-" ++ toString seed ++ ".txt",
     "results/convergence_hsa_seed-" ++ toString seed ++ ".csv"])) ++
  ((cfg.ces_seeds.getD cfg.training_seeds).flatMap (fun seed =>
    ["weights/ces/seed-" ++ toString seed ++ ".txt",
     "results/convergence_ces_seed-" ++ toString seed ++ ".csv"])) ++
  ((List.range cfg.random_weights).map (fun i =>
    "weights/baselines/random-" ++ format02 i ++ ".txt")) ++
  ["results/eval_hsa.csv", "results/eval_ces.csv", "results/eval_random.csv"] ++
  (if cfg.sweeps then
    ["bandwidth", "iterations", "pitch-adj-rate"].map (fun param =>
      "results/benchmark_" ++ dashToUnderscore param ++ ".csv")
   else []) ++
  (if cfg.mass_optimize then ["results/optimized_weights.csv"] else []) ++
  (if cfg.consistency then ["results/consistency.csv"] else [])

/-- The identities `train_hsa(seed, ...)` records. -/
def train_hsa_outputs (seed : Int) : List String :=
  ["weights/hsa/seed-" ++ toString seed ++ ".txt",
   "results/convergence_hsa_seed-" ++ toString seed ++ ".csv"]

/-- The identities `train_ces(seed, ...)` records. -/
def train_ces_outputs (seed : Int) : List String :=
  ["weights/ces/seed-" ++ toString seed ++ ".txt",
   "results/convergence_ces_seed-" ++ toString seed ++ ".csv"]

/-- The identities `create_baselines` records. -/
def create_baselines_outputs (random_weights : Nat) : List String :=
  (List.range random_weights).map (fun i =>
    "weights/baselines/random-" ++ format02 i ++ ".txt")

/-- The identities `run_eval(tag, weight_paths, ...)` records: nothing at all
when `weight_paths` is empty (the function returns early), else the one CSV. -/
def run_eval_outputs (tag : String) (weight_paths : List String) : List String :=
  if weight_paths.isEmpty then [] else ["results/eval_" ++ tag ++ ".csv"]

/-- The identity `run_sweep(param, ...)` records. -/
def run_sweep_output (param : String) : String :=
  "results/benchmark_" ++ dashToUnderscore param ++ ".csv"

/-- The set of identities the stage drivers record when `main()` runs every
stage to completion under `cfg`, mirroring the call sequence in `main`. -/
def produced_files (cfg : Config) : List String :=
  let hsa_weight_paths := cfg.training_seeds.map (fun seed =>
    "weights/hsa/seed-" ++ toString seed ++ ".txt")
  let ces_seeds := cfg.ces_seeds.getD cfg.training_seeds
  let ces_weight_paths := ces_seeds.map (fun seed =>
    "weights/ces/seed-" ++ toString seed ++ ".txt")
  let random_paths := (List.range cfg.random_weights).map (fun i =>
    "weights/baselines/random-" ++ format02 i ++ ".txt")
  (cfg.training_seeds.flatMap train_hsa_outputs) ++
  (ces_seeds.flatMap train_ces_outputs) ++
  create_baselines_outputs cfg.random_weights ++
  run_eval_outputs "hsa" hsa_weight_paths ++
  run_eval_outputs "ces" ces_weight_paths ++
  run_eval_outputs "random" random_paths ++
  (if cfg.sweeps then ["bandwidth", "iterations", "pitch-adj-rate"].map run_sweep_output else []) ++
  (if cfg.mass_optimize then ["results/optimized_weights.csv"] else []) ++
  (if cfg.consistency && !hsa_weight_paths.isEmpty then ["results/consistency.csv"] else [])

/-! ## Orphan reconciliation (`cleanup_orphans`) -/

/-- Python `rel_path.startswith("_")`: the first character is an underscore. -/
def startsWithUnderscore (s : String) : Bool :=
  match s.data with
  | [] => false
  | c :: _ => c = '_'

/-- An orphan: a tracked identity that is neither expected nor a virtual marker. -/
def isOrphan (m : Manifest) (expected : List String) (p : String) : Prop :=
  p ∈ m.entries.map Prod.fst ∧ p ∉ expected ∧ startsWithUnderscore p = false

instance (m : Manifest) (expected : List String) (p : String) :
    Decidable (isOrphan m expected p) := by unfold isOrphan; infer_instance

/-- `sorted(set(manifest.entries.keys()) - expected)` after dropping virtual
markers. -/
def sortedOrphans (m : Manifest) (expected : List String) : List String :=
  sortStrings ((m.entries.map Prod.fst).filter
    (fun k => !(expected.contains k) && !(startsWithUnderscore k)))

/-- Deleting a file from the oracle. -/
def unlinkFS (fs : FS) (rel_path : String) : FS :=
  fun q => if q = rel_path then .absent else fs q

/-- The state threaded through the orphan loop, with the raised exception (the
path whose `unlink` failed) made explicit. -/
structure CleanState where
  manifest : Manifest
  fs : FS
  err : Option String

/-- One iteration of the orphan loop.  A previously raised exception skips
the rest of the loop (it propagates out of `cleanup_orphans`); a locked file
raises at `full.unlink()`, before `manifest.remove` runs. -/
def cleanupStep (st : CleanState) (rel_path : String) : CleanState :=
  match st.err with
  | some _ => st
  | none =>
      match st.fs rel_path with
      | .locked => { st with err := some rel_path }
      | .present =>
          { manifest := st.manifest.remove rel_path, fs := unlinkFS st.fs rel_path, err := none }
      | .absent => { st with manifest := st.manifest.remove rel_path }

/-- `cleanup_orphans(manifest, expected)` run against the file-system oracle. -/
def cleanup_orphans (m : Manifest) (expected : List String) (fs : FS) : CleanState :=
  (sortedOrphans m expected).foldl cleanupStep ⟨m, fs, none⟩

/-! ## The global invalidation gate in `run_experiments.main` -/

/-- Lines 377-381 of `run_experiments.py`: clear every entry when the computed
binary hash is truthy and differs from the stored one, then store the computed
hash unconditionally. -/
def main_binary_gate (m : Manifest) (bh : String) : Manifest :=
  let m1 := if bh ≠ "" ∧ m.binary_hash ≠ bh then { m with entries := [] } else m
  { m1 with binary_hash := bh }

/-! ## Dependency chaining in `run_eval` -/

/-- The effective input `run_eval` fingerprints: the evaluation configuration,
the weight count, and the *recorded* upstream hash of each consumed weight
file — `manifest.hash_of(...)`, never a hash of file bytes. -/
def run_eval_effective_input (eval_cfg : PyVal) (n_weights : Int)
    (weight_paths : List String) (m : Manifest) : List (String × PyVal) :=
  [("evaluation", eval_cfg),
   ("n_weights", PyVal.int n_weights),
   ("upstream", PyVal.dict (weight_paths.map (fun p => (p, PyVal.str (m.hash_of p)))))]

/-- The fingerprint `run_eval` computes for its output CSV. -/
def run_eval_fingerprint (eval_cfg : PyVal) (n_weights : Int)
    (weight_paths : List String) (m : Manifest) : String :=
  Manifest.config_hash (run_eval_effective_input eval_cfg n_weights weight_paths m)

/-! ## `Manifest.load` over the persisted file -/

/-- The Python exceptions that can escape the body of `Manifest.load`. -/
inductive PyExc where
  | fileNotFound : PyExc
  | jsonDecode : PyExc
  | typeError : PyExc
  | keyError : PyExc
  | attributeError : PyExc
deriving DecidableEq

/-- The persisted manifest file as `Manifest.load` observes it: missing,
unparseable, or parsed into a JSON value. -/
inductive ManifestFile where
  | missing : ManifestFile
  | garbled : ManifestFile
  | parsed (j : PyVal) : ManifestFile

/-- An entry as loaded from disk.  The dataclass does not check field types at
run time, so the loaded fields can be arbitrary JSON values. -/
structure LoadedEntry where
  config_hash : PyVal
  produced_at : PyVal

/-- A manifest as loaded from disk. -/
structure LoadedManifest where
  version : PyVal
  binary_hash : PyVal
  entries : List (String × LoadedEntry)

/-- `dict.get` over a parsed JSON object. -/
def lookupJ (kvs : List (String × PyVal)) (k : String) : Option PyVal :=
  match kvs.find? (fun p => p.1 == k) with
  | some p => some p.2
  | none => none

/-- `ManifestEntry(**v)`: `v` must be a mapping whose key set is exactly
`config_hash` and `produced_at`, else the call raises `TypeError`. -/
def parseEntry : PyVal → Except PyExc LoadedEntry
  | .dict fields =>
      match lookupJ fields "config_hash", lookupJ fields "produced_at" with
      | some ch, some pa =>
          if fields.all (fun q => q.1 == "config_hash" || q.1 == "produced_at") then
            .ok ⟨ch, pa⟩
          else .error .typeError
      | _, _ => .error .typeError
  | _ => .error .typeError

/-- The entry comprehension, raising at the first bad item. -/
def parseEntries : List (String × PyVal) → Except PyExc (List (String × LoadedEntry))
  | [] => .ok []
  | (k, v) :: t =>
      match parseEntry v with
      | .error e => .error e
      | .ok entry =>
          match parseEntries t with
          | .error e => .error e
          | .ok rest => .ok ((k, entry) :: rest)

/-- The body of the `try` block in `Manifest.load`.  Calling `.get` on a
non-mapping, or `.items()` on a non-mapping `entries` value, raises
`AttributeError`. -/
def load_attempt : ManifestFile → Except PyExc LoadedManifest
  | .missing => .error .fileNotFound
  | .garbled => .error .jsonDecode
  | .parsed j =>
      match j with
      | .dict raw =>
          match (lookupJ raw "entries").getD (.dict []) with
          | .dict ekvs =>
              match parseEntries ekvs with
              | .error e => .error e
              | .ok es =>
                  .ok ⟨(lookupJ raw "version").getD (.int 1),
                       (lookupJ raw "binary_hash").getD (.str ""), es⟩
          | _ => .error .attributeError
      | _ => .error .attributeError

/-- `Manifest.load()`: the `except` clause catches `FileNotFoundError`,
`json.JSONDecodeError`, `TypeError` and `KeyError`, returning a fresh empty
manifest; any other exception propagates. -/
def Manifest.load (c : ManifestFile) : Except PyExc LoadedManifest :=
  match load_attempt c with
  | .ok m => .ok m
  | .error .fileNotFound => .ok ⟨.int 1, .str "", []⟩
  | .error .jsonDecode => .ok ⟨.int 1, .str "", []⟩
  | .error .typeError => .ok ⟨.int 1, .str "", []⟩
  | .error .keyError => .ok ⟨.int 1, .str "", []⟩
  | .error e => .error e

/-! ## Timestamp-independence -/

/-- Two manifests that agree on everything a cache decision can read: version,
engine fingerprint, entry keys and entry fingerprints.  The `produced_at`
timestamps are left free. -/
def sameView (m1 m2 : Manifest) : Prop :=
  m1.version = m2.version ∧ m1.binary_hash = m2.binary_hash ∧
    m1.entries.map (fun p => (p.1, p.2.config_hash)) =
      m2.entries.map (fun p => (p.1, p.2.config_hash))

instance (m1 m2 : Manifest) : Decidable (sameView m1 m2) := by
  unfold sameView; infer_instance

mutual

/-- The value `json.dumps(..., default=str)` effectively serializes: every
non-serializable leaf replaced by its `str()` text. -/
def defaultStr : PyVal → PyVal
  | .null => .null
  | .bool b => .bool b
  | .int n => .int n
  | .str s => .str s
  | .list xs => .list (defaultStrList xs)
  | .dict kvs => .dict (defaultStrItems kvs)
  | .obj s => .str s

def defaultStrList : List PyVal → List PyVal
  | [] => []
  | x :: xs => defaultStr x :: defaultStrList xs

def defaultStrItems : List (String × PyVal) → List (String × PyVal)
  | [] => []
  | (k, v) :: t => (k, defaultStr v) :: defaultStrItems t

end

/-! ## Concrete instances used to exercise the theorems -/

/-- A keyword dictionary built in one insertion order. -/
def kw_ba : List (String × PyVal) :=
  [("seed", .int 3), ("hsa", .dict [("bandwidth", .int 1), ("accept_rate", .str "x")])]

/-- The same dictionary built in the other insertion order. -/
def kw_ab : List (String × PyVal) :=
  [("hsa", .dict [("accept_rate", .str "x"), ("bandwidth", .int 1)]), ("seed", .int 3)]

/-- A file system with no files at all. -/
def emptyFS : FS := fun _ => .absent

/-- A manifest holding only the virtual plots marker, as `plot_results.main`
records it. -/
def marker_manifest : Manifest :=
  { version := 1, binary_hash := "", entries := [("_plots_marker", ⟨"abc123", "2024-01-01"⟩)] }

/-- Evaluation configuration for the dependency-chaining scenario. -/
def chain_eval_cfg : PyVal :=
  .dict [("seeds", .list [.int 1, .int 2]), ("sim_length", .int 200)]

/-- The weight files `run_eval` consumes in the scenario. -/
def chain_paths : List String := ["weights/hsa/seed-1.txt"]

/-- The manifest after stage A (training) ran. -/
def chain_m0 : Manifest :=
  { version := 1, binary_hash := "",
    entries := [("weights/hsa/seed-1.txt", ⟨"1111aaaa2222bbbb", "t0"⟩)] }

/-- The fingerprint stage B (evaluation) recorded. -/
def chain_fp0 : String := run_eval_fingerprint chain_eval_cfg 8 chain_paths chain_m0

/-- The manifest after stage B recorded its output. -/
def chain_m : Manifest := chain_m0.record "results/eval_hsa.csv" chain_fp0 "t1"

/-- A manifest whose stored engine fingerprint is `abc`. -/
def gate_manifest : Manifest :=
  { version := 1, binary_hash := "abc", entries := [("x", ⟨"h1", "t1"⟩)] }

/-- The orphan-GC scenario of the spec: entries `p1, p2, p3, _marker`. -/
def gc_manifest : Manifest :=
  { version := 1, binary_hash := "",
    entries := [("p1", ⟨"h1", "t1"⟩), ("p2", ⟨"h2", "t2"⟩),
                ("p3", ⟨"h3", "t3"⟩), ("_marker", ⟨"h4", "t4"⟩)] }

/-- All three tracked files exist and are deletable. -/
def gc_fs : FS := fun q => if q = "p1" ∨ q = "p2" ∨ q = "p3" then .present else .absent

/-- Two orphans, the alphabetically first of which cannot be deleted. -/
def locked_manifest : Manifest :=
  { version := 1, binary_hash := "",
    entries := [("a.csv", ⟨"h1", "t1"⟩), ("b.csv", ⟨"h2", "t2"⟩)] }

/-- `a.csv` raises on `unlink`; `b.csv` is an ordinary file. -/
def locked_fs : FS :=
  fun q => if q = "a.csv" then .locked else if q = "b.csv" then .present else .absent

/-- A keyword dictionary containing a value `json` cannot serialize (a `Path`). -/
def path_kwargs : List (String × PyVal) :=
  [("output", .obj "weights/hsa/seed-1.txt"), ("seed", .int 1)]

/-- A configuration with no training seeds, no CES seed override, and no
random baselines. -/
def empty_seeds_cfg : Config :=
  { training_seeds := [], ces_seeds := none, random_weights := 0,
    sweeps := false, mass_optimize := false, consistency := false }

/-- A configuration with every stage enabled. -/
def full_cfg : Config :=
  { training_seeds := [1, 2], ces_seeds := some [3], random_weights := 2,
    sweeps := true, mass_optimize := true, consistency := true }

/-- A manifest with two entries and specific timestamps. -/
def ts_m1 : Manifest :=
  { version := 1, binary_hash := "bh",
    entries := [("a", ⟨"h1", "2024-01-01T00:00:00"⟩), ("b", ⟨"h2", "2024-01-02T00:00:00"⟩)] }

/-- The same manifest with the timestamps replaced arbitrarily. -/
def ts_m2 : Manifest :=
  { version := 1, binary_hash := "bh",
    entries := [("a", ⟨"h1", "2025-06-06T06:06:06"⟩), ("b", ⟨"h2", "1999-09-09T09:09:09"⟩)] }

/-! ## Order facts for the sorts -/

theorem strLeB_total : ∀ l1 l2 : List Char, strLeB l1 l2 = true ∨ strLeB l2 l1 = true
  | [], _ => by left; rfl
  | _ :: _, [] => by right; rfl
  | a :: as, b :: bs => by
      simp only [strLeB]
      rcases Nat.lt_trichotomy a.toNat b.toNat with h | h | h
      · left; simp [h]
      · have h2 : ¬ a.toNat < b.toNat := by omega
        have h3 : ¬ b.toNat < a.toNat := by omega
        simpa [h2, h3] using strLeB_total as bs
      · right; simp [h]

theorem strLeB_trans : ∀ l1 l2 l3 : List Char,
    strLeB l1 l2 = true → strLeB l2 l3 = true → strLeB l1 l3 = true
  | [], _, _ => by intro _ _; rfl
  | a :: as, [], _ => by intro h _; simp [strLeB] at h
  | a :: as, b :: bs, [] => by intro _ h; simp [strLeB] at h
  | a :: as, b :: bs, c :: cs => by
      intro h12 h23
      simp only [strLeB] at h12 h23 ⊢
      by_cases hab : a.toNat < b.toNat
      · by_cases hbc : b.toNat < c.toNat
        · simp [show a.toNat < c.toNat by omega]
        · simp only [if_pos hab] at h12
          by_cases hcb : c.toNat < b.toNat
          · simp [hbc, hcb] at h23
          · simp [show a.toNat < c.toNat by omega]
      · by_cases hba : b.toNat < a.toNat
        · simp [hab, hba] at h12
        · have hab2 : a.toNat = b.toNat := by omega
          by_cases hbc : b.toNat < c.toNat
          · simp [show a.toNat < c.toNat by omega]
          · by_cases hcb : c.toNat < b.toNat
            · simp [hbc, hcb] at h23
            · have h1 : ¬ a.toNat < c.toNat := by omega
              have h2 : ¬ c.toNat < a.toNat := by omega
              simp only [hab, hba, if_neg, ite_false] at h12
              simp only [hbc, hcb, if_neg, ite_false] at h23
              simpa [h1, h2] using strLeB_trans as bs cs h12 h23

instance : IsTotal String strLe := ⟨fun a b => strLeB_total a.data b.data⟩

instance : IsTrans String strLe := ⟨fun _ _ _ => strLeB_trans _ _ _⟩

instance {α : Type} : IsTotal (String × α) keyLe := ⟨fun a b => strLeB_total a.1.data b.1.data⟩

instance {α : Type} : IsTrans (String × α) keyLe := ⟨fun _ _ _ => strLeB_trans _ _ _⟩

theorem sortByKey_sorted {α : Type} (l : List (String × α)) :
    List.Sorted keyLe (sortByKey l) :=
  List.sorted_insertionSort keyLe l

theorem sortByKey_idem {α : Type} (l : List (String × α)) :
    sortByKey (sortByKey l) = sortByKey l :=
  (sortByKey_sorted l).insertionSort_eq

theorem sortByKey_perm {α : Type} (l : List (String × α)) : (sortByKey l).Perm l :=
  List.perm_insertionSort keyLe l

theorem orderedInsert_keymap {α β : Type} (f : α → β) (a : String × α) :
    ∀ l : List (String × α),
      List.orderedInsert keyLe (a.1, f a.2) (l.map (fun p => (p.1, f p.2))) =
        (List.orderedInsert keyLe a l).map (fun p => (p.1, f p.2))
  | [] => rfl
  | b :: t => by
      by_cases h : keyLe a b
      · have h2 : keyLe (α := β) (a.1, f a.2) (b.1, f b.2) := h
        simp [List.orderedInsert, h, h2]
      · have h2 : ¬ keyLe (α := β) (a.1, f a.2) (b.1, f b.2) := h
        simp [List.orderedInsert, h, h2, orderedInsert_keymap f a t]

theorem sortByKey_map {α β : Type} (f : α → β) :
    ∀ l : List (String × α),
      sortByKey (l.map (fun p => (p.1, f p.2))) =
        (sortByKey l).map (fun p => (p.1, f p.2))
  | [] => rfl
  | a :: t => by
      simp only [sortByKey, List.map_cons, List.insertionSort]
      rw [show List.insertionSort keyLe (t.map (fun p => (p.1, f p.2))) =
            sortByKey (t.map (fun p => (p.1, f p.2))) from rfl,
          sortByKey_map f t]
      exact orderedInsert_keymap f a (sortByKey t)

/-! ## The serialization is invariant under key-sorting -/

theorem dumpsList_eq_map : ∀ xs : List PyVal, dumpsList xs = xs.map dumps
  | [] => rfl
  | x :: xs => by simp [dumpsList, dumpsList_eq_map xs]

theorem dumpsItems_eq_map : ∀ t : List (String × PyVal),
    dumpsItems t = t.map (fun p => (p.1, dumps p.2))
  | [] => rfl
  | (k, v) :: t => by simp [dumpsItems, dumpsItems_eq_map t]

theorem canonList_eq_map : ∀ xs : List PyVal, canonList xs = xs.map canon
  | [] => rfl
  | x :: xs => by simp [canonList, canonList_eq_map xs]

theorem canonItems_eq_map : ∀ t : List (String × PyVal),
    canonItems t = t.map (fun p => (p.1, canon p.2))
  | [] => rfl
  | (k, v) :: t => by simp [canonItems, canonItems_eq_map t]

mutual

theorem dumps_canon : ∀ v : PyVal, dumps (canon v) = dumps v
  | .null => rfl
  | .bool true => rfl
  | .bool false => rfl
  | .int _ => rfl
  | .str _ => rfl
  | .obj _ => rfl
  | .list xs => by
      simp only [canon, dumps]
      rw [dumpsList_canon xs]
  | .dict kvs => by
      simp only [canon, dumps]
      rw [dumpsItems_eq_map (sortByKey (canonItems kvs)),
          show (fun p : String × PyVal => (p.1, dumps p.2)) =
            (fun p : String × PyVal => (p.1, dumps p.2)) from rfl,
          ← sortByKey_map dumps (canonItems kvs),
          ← dumpsItems_eq_map (canonItems kvs),
          dumpsItems_canon kvs,
          sortByKey_idem (dumpsItems kvs)]

theorem dumpsList_canon : ∀ xs : List PyVal, dumpsList (canonList xs) = dumpsList xs
  | [] => rfl
  | x :: xs => by
      simp only [canonList, dumpsList]
      rw [dumps_canon x, dumpsList_canon xs]

theorem dumpsItems_canon : ∀ t : List (String × PyVal),
    dumpsItems (canonItems t) = dumpsItems t
  | [] => rfl
  | (k, v) :: t => by
      simp only [canonItems, dumpsItems]
      rw [dumps_canon v, dumpsItems_canon t]

end

/-! ## The digest is a fixed-width hex string -/

theorem hexChar_mem (n : Nat) : hexChar n ∈ hexDigits := by
  by_cases h : n < 16
  · exact List.mem_map.mpr ⟨n, List.mem_range.mpr h, rfl⟩
  · have hf : hexChar n = hexChar 15 := by
      unfold hexChar
      split <;> first
      | rfl
      | omega
    rw [hf]
    exact List.mem_map.mpr ⟨15, by decide, rfl⟩

theorem hexOfBytes_mem (l : List Nat) : ∀ c ∈ hexOfBytes l, c ∈ hexDigits := by
  intro c hc
  simp only [hexOfBytes, List.mem_flatMap, List.mem_cons, List.not_mem_nil, or_false] at hc
  obtain ⟨b, _, hc⟩ := hc
  rcases hc with h | h <;> exact h ▸ hexChar_mem _

theorem hexOfBytes_length (l : List Nat) : (hexOfBytes l).length = 2 * l.length := by
  induction l with
  | nil => rfl
  | cons b t ih =>
      simp only [hexOfBytes, List.flatMap_cons, List.length_append, List.length_cons,
        List.length_nil] at ih ⊢
      omega

theorem digestBytes_length (hv : Hv) : (digestBytes hv).length = 32 := rfl

theorem sha256_length (msg : List Nat) : (sha256 msg).length = 32 := rfl

theorem config_hash_length (kw : List (String × PyVal)) :
    (Manifest.config_hash kw).length = 16 := by
  have h64 : (hexOfBytes (sha256 (utf8Bytes (dumps (PyVal.dict kw)).data))).length = 64 := by
    rw [hexOfBytes_length, sha256_length]
  show (List.take 16 (hexOfBytes (sha256 (utf8Bytes (dumps (PyVal.dict kw)).data)))).length = 16
  rw [List.length_take, h64]
  decide

theorem config_hash_hex (kw : List (String × PyVal)) :
    ∀ c ∈ (Manifest.config_hash kw).data, c ∈ hexDigits := by
  intro c hc
  have hc2 : c ∈ hexOfBytes (sha256 (utf8Bytes (dumps (PyVal.dict kw)).data)) :=
    List.take_subset 16 _ hc
  exact hexOfBytes_mem _ c hc2

/-! ## `default=str` only rewrites non-serializable leaves -/

mutual

theorem dumps_defaultStr : ∀ v : PyVal, dumps (defaultStr v) = dumps v
  | .null => rfl
  | .bool true => rfl
  | .bool false => rfl
  | .int _ => rfl
  | .str _ => rfl
  | .obj _ => rfl
  | .list xs => by
      simp only [defaultStr, dumps]
      rw [dumpsList_defaultStr xs]
  | .dict kvs => by
      simp only [defaultStr, dumps]
      rw [dumpsItems_defaultStr kvs]

theorem dumpsList_defaultStr : ∀ xs : List PyVal, dumpsList (defaultStrList xs) = dumpsList xs
  | [] => rfl
  | x :: xs => by
      simp only [defaultStrList, dumpsList]
      rw [dumps_defaultStr x, dumpsList_defaultStr xs]

theorem dumpsItems_defaultStr : ∀ t : List (String × PyVal),
    dumpsItems (defaultStrItems t) = dumpsItems t
  | [] => rfl
  | (k, v) :: t => by
      simp only [defaultStrItems, dumpsItems]
      rw [dumps_defaultStr v, dumpsItems_defaultStr t]

end

mutual

theorem jsonOk_defaultStr : ∀ v : PyVal, jsonOk (defaultStr v) = true
  | .null => rfl
  | .bool _ => rfl
  | .int _ => rfl
  | .str _ => rfl
  | .obj _ => rfl
  | .list xs => by
      simp only [defaultStr, jsonOk]
      exact jsonOkList_defaultStr xs
  | .dict kvs => by
      simp only [defaultStr, jsonOk]
      exact jsonOkItems_defaultStr kvs

theorem jsonOkList_defaultStr : ∀ xs : List PyVal, jsonOkList (defaultStrList xs) = true
  | [] => rfl
  | x :: xs => by
      simp only [defaultStrList, jsonOkList, jsonOk_defaultStr x, jsonOkList_defaultStr xs,
        Bool.and_self]

theorem jsonOkItems_defaultStr : ∀ t : List (String × PyVal),
    jsonOkItems (defaultStrItems t) = true
  | [] => rfl
  | (k, v) :: t => by
      simp only [defaultStrItems, jsonOkItems, jsonOk_defaultStr v, jsonOkItems_defaultStr t,
        Bool.and_self]

end

/-! ## Claim C1: determinism and format of the fingerprint -/

/-- Claim C1: for JSON-representable keyword dictionaries that are structurally
equal after key-sorting — whatever order the keys were inserted in —
`Manifest.config_hash` returns the same fingerprint, and the fingerprint is a
16-character lowercase-hex string. -/
theorem config_hash_deterministic (kw1 kw2 : List (String × PyVal))
    (h1 : jsonOk (.dict kw1) = true) (h2 : jsonOk (.dict kw2) = true)
    (hc : canon (.dict kw1) = canon (.dict kw2)) :
    Manifest.config_hash kw1 = Manifest.config_hash kw2 ∧
    (Manifest.config_hash kw1).length = 16 ∧
    ∀ c ∈ (Manifest.config_hash kw1).data, c ∈ hexDigits := by
  refine ⟨?_, config_hash_length kw1, config_hash_hex kw1⟩
  have hd : dumps (PyVal.dict kw1) = dumps (PyVal.dict kw2) := by
    rw [← dumps_canon (PyVal.dict kw1), hc, dumps_canon]
  unfold Manifest.config_hash
  rw [hd]

/-- Claim C1 witness: two concrete dictionaries that agree after key-sorting
but were built in different insertion orders get one and the same fingerprint. -/
theorem config_hash_deterministic_witness :
    jsonOk (.dict kw_ba) = true ∧ jsonOk (.dict kw_ab) = true ∧
    canon (.dict kw_ba) = canon (.dict kw_ab) ∧
    Manifest.config_hash kw_ba = Manifest.config_hash kw_ab :=
  ⟨rfl, rfl, rfl, (config_hash_deterministic kw_ba kw_ab rfl rfl rfl).1⟩

/-! ## Claim C8: `default=str` swallows non-serializable values -/

/-- Claim C8 counterexample: `path_kwargs` contains a value that is not
JSON-representable, yet `Manifest.config_hash` raises nothing and silently
returns a well-formed fingerprint — `json.dumps` is called with `default=str`,
so the non-serializable leaf is coerced instead of failing. -/
theorem config_hash_no_hard_failure :
    jsonOk (.dict path_kwargs) = false ∧
    (Manifest.config_hash path_kwargs).length = 16 ∧
    ∀ c ∈ (Manifest.config_hash path_kwargs).data, c ∈ hexDigits :=
  ⟨rfl, config_hash_length _, config_hash_hex _⟩

/-- Claim C8 amended: on a non-JSON-representable input `Manifest.config_hash`
does not fail; `default=str` replaces each non-serializable leaf by its `str()`
text and the call returns the 16-hex-character fingerprint of the coerced
value. -/
theorem config_hash_coerces_nonrepresentable (kw : List (String × PyVal))
    (h : jsonOk (.dict kw) = false) :
    jsonOk (.dict (defaultStrItems kw)) = true ∧
    Manifest.config_hash kw = Manifest.config_hash (defaultStrItems kw) ∧
    (Manifest.config_hash kw).length = 16 ∧
    ∀ c ∈ (Manifest.config_hash kw).data, c ∈ hexDigits := by
  refine ⟨?_, ?_, config_hash_length kw, config_hash_hex kw⟩
  · show jsonOkItems (defaultStrItems kw) = true
    exact jsonOkItems_defaultStr kw
  · unfold Manifest.config_hash
    rw [show dumps (PyVal.dict kw) = dumps (PyVal.dict (defaultStrItems kw)) by
      exact (dumps_defaultStr (PyVal.dict kw)).symm]

/-- Claim C8 amended witness: the coercion theorem applied to the concrete
`Path`-carrying dictionary. -/
theorem config_hash_coerces_witness :
    jsonOk (.dict path_kwargs) = false ∧
    Manifest.config_hash path_kwargs = Manifest.config_hash (defaultStrItems path_kwargs) :=
  ⟨rfl, (config_hash_coerces_nonrepresentable path_kwargs rfl).2.1⟩

/-! ## Dictionary lemmas -/

theorem dictGet_cons (a : String × ManifestEntry) (t : List (String × ManifestEntry))
    (q : String) :
    dictGet (a :: t) q = if a.1 = q then some a.2 else dictGet t q := by
  unfold dictGet
  rw [List.find?_cons]
  by_cases h : a.1 = q
  · simp [h]
  · have hb : (a.1 == q) = false := by simp [h]
    simp [h, hb]

theorem dictGet_dictSet (l : List (String × ManifestEntry)) (k : String) (e : ManifestEntry)
    (q : String) : dictGet (dictSet l k e) q = if q = k then some e else dictGet l q := by
  induction l with
  | nil =>
      show dictGet [(k, e)] q = if q = k then some e else dictGet [] q
      rw [dictGet_cons]
      by_cases h : q = k
      · simp [h]
      · have hne : ¬ k = q := fun hk => h hk.symm
        simp [h, hne]
  | cons a t ih =>
      by_cases ha : a.1 = k
      · have hb : (a.1 == k) = true := by simp [ha]
        have hs : dictSet (a :: t) k e = (k, e) :: t := by
          show (if (a.1 == k) = true then (k, e) :: t else a :: dictSet t k e) = (k, e) :: t
          rw [if_pos hb]
        rw [hs, dictGet_cons, dictGet_cons]
        by_cases h : q = k
        · simp [h, ha]
        · have hne : ¬ k = q := fun hk => h hk.symm
          have hne2 : ¬ a.1 = q := ha ▸ hne
          simp [h, hne, hne2]
      · have hb : (a.1 == k) = false := by simp [ha]
        have hs : dictSet (a :: t) k e = a :: dictSet t k e := by
          show (if (a.1 == k) = true then (k, e) :: t else a :: dictSet t k e) =
            a :: dictSet t k e
          rw [if_neg (by simp [hb])]
        rw [hs, dictGet_cons, dictGet_cons, ih]
        by_cases haq : a.1 = q
        · have h : ¬ q = k := fun hk => ha (haq.trans hk)
          simp [haq, h]
        · simp [haq]

theorem dictGet_filter_out (l : List (String × ManifestEntry)) (p q : String) :
    dictGet (l.filter (fun r => !(r.1 == p))) q =
      if q = p then none else dictGet l q := by
  induction l with
  | nil => by_cases h : q = p <;> simp [dictGet, h]
  | cons a t ih =>
      rw [List.filter_cons]
      by_cases hap : a.1 = p
      · have hb : (!(a.1 == p)) = false := by simp [hap]
        rw [if_neg (by simp [hb]), ih, dictGet_cons]
        by_cases h : q = p
        · simp [h]
        · have hne : ¬ a.1 = q := fun hk => h (hk.symm.trans hap)
          simp [h, hne]
      · have hb : (!(a.1 == p)) = true := by simp [hap]
        rw [if_pos (by simp [hb]), dictGet_cons, dictGet_cons, ih]
        by_cases haq : a.1 = q
        · have h : ¬ q = p := fun hk => hap (haq.trans hk)
          simp [haq, h]
        · simp [haq]

theorem dictGet_remove (m : Manifest) (p q : String) :
    dictGet (m.remove p).entries q = if q = p then none else dictGet m.entries q := by
  unfold Manifest.remove
  exact dictGet_filter_out m.entries p q

theorem dictGet_record (m : Manifest) (p h ts q : String) :
    dictGet (m.record p h ts).entries q =
      if q = p then some ⟨h, ts⟩ else dictGet m.entries q := by
  unfold Manifest.record
  exact dictGet_dictSet m.entries p ⟨h, ts⟩ q

theorem hash_of_record (m : Manifest) (p h ts q : String) :
    (m.record p h ts).hash_of q = if q = p then h else m.hash_of q := by
  unfold Manifest.hash_of
  rw [dictGet_record]
  by_cases hq : q = p <;> simp [hq]

/-! ## Claim C2: freshness of virtual markers -/

/-- Claim C2 (divergence witness): the manifest holds an entry for the virtual
marker `_plots_marker` whose stored fingerprint equals the expected one exactly,
yet `is_fresh` answers `false`, because the code applies the on-disk existence
check to every identity and no file named `_plots_marker` ever exists.  The
claim says virtual-marker identities skip the file-existence check. -/
theorem is_fresh_checks_file_for_virtual_marker :
    dictGet marker_manifest.entries "_plots_marker" = some ⟨"abc123", "2024-01-01"⟩ ∧
    Manifest.is_fresh marker_manifest "_plots_marker" "abc123" emptyFS = false :=
  ⟨rfl, rfl⟩

/-! ## Claim C4: the global invalidation gate -/

/-- Claim C4 counterexample: with a stored engine fingerprint `abc` and an
uncomputable (empty) current fingerprint, the gate leaves the entries alone but
does not leave the stored engine fingerprint unchanged — it overwrites it with
the empty string. -/
theorem main_binary_gate_clobbers_on_empty :
    gate_manifest.binary_hash = "abc" ∧
    (main_binary_gate gate_manifest "").entries = gate_manifest.entries ∧
    (main_binary_gate gate_manifest "").binary_hash = "" ∧
    (main_binary_gate gate_manifest "").binary_hash ≠ gate_manifest.binary_hash := by
  refine ⟨rfl, ?_, ?_, ?_⟩ <;> decide

/-- Claim C4 amended: the gate stores the computed engine fingerprint
unconditionally (also when it is empty); it clears the entries exactly when the
computed fingerprint is non-empty and differs from the stored one, keeping the
manifest object (its version) either way.  So (i) and (ii) of the claim hold,
while on an uncomputable fingerprint no wipe happens but the stored engine
fingerprint is overwritten with the empty value. -/
theorem main_binary_gate_spec (m : Manifest) (bh : String) :
    (main_binary_gate m bh).binary_hash = bh ∧
    (main_binary_gate m bh).version = m.version ∧
    (main_binary_gate m bh).entries =
      (if bh ≠ "" ∧ m.binary_hash ≠ bh then [] else m.entries) := by
  unfold main_binary_gate
  by_cases h : bh ≠ "" ∧ m.binary_hash ≠ bh <;> simp [h]

/-! ## Claim C6: what `Manifest.load` survives -/

/-- Claim C6 (divergence witness): a missing file and a garbled file are
recovered to a fresh empty manifest, but a persisted file holding valid JSON of
the wrong top-level type (an array, a string), or a mapping whose `entries`
value is not a mapping, raises `AttributeError` — `raw.get(...)` or
`.items()` on a non-`dict`, an exception class the `except` clause does not
catch.  The claim says `load()` never raises on any decode or shape error. -/
theorem load_raises_on_wrong_toplevel_type :
    Manifest.load (.parsed (.list [])) = .error .attributeError ∧
    Manifest.load (.parsed (.str "x")) = .error .attributeError ∧
    Manifest.load (.parsed (.dict [("entries", .list [])])) = .error .attributeError ∧
    Manifest.load .missing = .ok ⟨.int 1, .str "", []⟩ ∧
    Manifest.load .garbled = .ok ⟨.int 1, .str "", []⟩ ∧
    Manifest.load (.parsed (.dict [("entries", .dict [("k", .str "bad-entry-shape")])])) =
      .ok ⟨.int 1, .str "", []⟩ :=
  ⟨rfl, rfl, rfl, rfl, rfl, rfl⟩

/-! ## The orphan loop, characterized -/

theorem cleanup_foldl_skip : ∀ (l : List String) (st : CleanState) (e : String),
    st.err = some e → l.foldl cleanupStep st = st
  | [], _, _, _ => rfl
  | a :: t, st, e, h => by
      rw [List.foldl_cons, show cleanupStep st a = st by simp [cleanupStep, h]]
      exact cleanup_foldl_skip t st e h

theorem cleanup_foldl_ok (l : List String) : ∀ (ms : Manifest) (fss : FS),
    (∀ p ∈ l, fss p ≠ .locked) →
    ((l.foldl cleanupStep ⟨ms, fss, none⟩).err = none ∧
     (∀ q, (l.foldl cleanupStep ⟨ms, fss, none⟩).fs q = if q ∈ l then .absent else fss q) ∧
     (∀ q, dictGet (l.foldl cleanupStep ⟨ms, fss, none⟩).manifest.entries q =
        if q ∈ l then none else dictGet ms.entries q) ∧
     (l.foldl cleanupStep ⟨ms, fss, none⟩).manifest.version = ms.version ∧
     (l.foldl cleanupStep ⟨ms, fss, none⟩).manifest.binary_hash = ms.binary_hash) := by
  induction l with
  | nil =>
      intro ms fss _
      refine ⟨rfl, ?_, ?_, rfl, rfl⟩ <;> intro q <;> simp [List.foldl]
  | cons a t ih =>
      intro ms fss hok
      have hfa : fss a ≠ .locked := hok a (List.mem_cons_self a t)
      have hok2 : ∀ p ∈ t, fss p ≠ .locked := fun p hp => hok p (List.mem_cons_of_mem a hp)
      cases hfs : fss a with
      | locked => exact absurd hfs hfa
      | absent =>
          have hstep : cleanupStep ⟨ms, fss, none⟩ a = ⟨ms.remove a, fss, none⟩ := by
            simp [cleanupStep, hfs]
          rw [List.foldl_cons, hstep]
          obtain ⟨e1, e2, e3, e4, e5⟩ := ih (ms.remove a) fss hok2
          refine ⟨e1, ?_, ?_, by rw [e4]; rfl, by rw [e5]; rfl⟩
          · intro q
            rw [e2 q]
            by_cases hqt : q ∈ t
            · simp [hqt]
            · by_cases hqa : q = a
              · subst hqa; simp [hqt, hfs]
              · simp [hqt, hqa]
          · intro q
            rw [e3 q, dictGet_remove]
            by_cases hqt : q ∈ t
            · simp [hqt]
            · by_cases hqa : q = a
              · subst hqa; simp [hqt]
              · simp [hqt, hqa]
      | present =>
          have hstep : cleanupStep ⟨ms, fss, none⟩ a = ⟨ms.remove a, unlinkFS fss a, none⟩ := by
            simp [cleanupStep, hfs]
          rw [List.foldl_cons, hstep]
          have hok3 : ∀ p ∈ t, unlinkFS fss a p ≠ .locked := by
            intro p hp
            unfold unlinkFS
            by_cases hpa : p = a
            · simp [hpa]
            · simp [hpa]; exact hok2 p hp
          obtain ⟨e1, e2, e3, e4, e5⟩ := ih (ms.remove a) (unlinkFS fss a) hok3
          refine ⟨e1, ?_, ?_, by rw [e4]; rfl, by rw [e5]; rfl⟩
          · intro q
            rw [e2 q]
            unfold unlinkFS
            by_cases hqt : q ∈ t
            · simp [hqt]
            · by_cases hqa : q = a
              · subst hqa; simp [hqt]
              · simp [hqt, hqa]
          · intro q
            rw [e3 q, dictGet_remove]
            by_cases hqt : q ∈ t
            · simp [hqt]
            · by_cases hqa : q = a
              · subst hqa; simp [hqt]
              · simp [hqt, hqa]

theorem cleanup_foldl_fail : ∀ (l1 : List String) (q : String) (l2 : List String)
    (ms : Manifest) (fss : FS),
    (∀ p ∈ l1, fss p ≠ .locked) → fss q = .locked →
    (((l1 ++ q :: l2).foldl cleanupStep ⟨ms, fss, none⟩).err = some q ∧
     (∀ x, x ∉ l1 →
        ((l1 ++ q :: l2).foldl cleanupStep ⟨ms, fss, none⟩).fs x = fss x ∧
        dictGet ((l1 ++ q :: l2).foldl cleanupStep ⟨ms, fss, none⟩).manifest.entries x =
          dictGet ms.entries x) ∧
     (∀ x, x ∈ l1 →
        ((l1 ++ q :: l2).foldl cleanupStep ⟨ms, fss, none⟩).fs x = .absent ∧
        dictGet ((l1 ++ q :: l2).foldl cleanupStep ⟨ms, fss, none⟩).manifest.entries x = none))
  | [], q, l2, ms, fss, _, hq => by
      have hstep : cleanupStep ⟨ms, fss, none⟩ q = ⟨ms, fss, some q⟩ := by
        simp [cleanupStep, hq]
      rw [List.nil_append, List.foldl_cons, hstep,
        cleanup_foldl_skip l2 ⟨ms, fss, some q⟩ q rfl]
      exact ⟨rfl, fun x _ => ⟨rfl, rfl⟩, fun x hx => absurd hx (List.not_mem_nil x)⟩
  | a :: t, q, l2, ms, fss, hok, hq => by
      have hfa : fss a ≠ .locked := hok a (List.mem_cons_self a t)
      have hok2 : ∀ p ∈ t, fss p ≠ .locked := fun p hp => hok p (List.mem_cons_of_mem a hp)
      cases hfs : fss a with
      | locked => exact absurd hfs hfa
      | absent =>
          have hstep : cleanupStep ⟨ms, fss, none⟩ a = ⟨ms.remove a, fss, none⟩ := by
            simp [cleanupStep, hfs]
          rw [List.cons_append, List.foldl_cons, hstep]
          obtain ⟨e1, e2, e3⟩ := cleanup_foldl_fail t q l2 (ms.remove a) fss hok2 hq
          refine ⟨e1, ?_, ?_⟩
          · intro x hx
            have hxa : x ≠ a := fun hc => hx (hc ▸ List.mem_cons_self a t)
            have hxt : x ∉ t := fun hc => hx (List.mem_cons_of_mem a hc)
            obtain ⟨f1, f2⟩ := e2 x hxt
            refine ⟨f1, ?_⟩
            rw [f2, dictGet_remove, if_neg hxa]
          · intro x hx
            rcases List.mem_cons.mp hx with hxa | hxt
            · subst hxa
              by_cases hxt : x ∈ t
              · exact e3 x hxt
              · obtain ⟨f1, f2⟩ := e2 x hxt
                refine ⟨f1.trans hfs, ?_⟩
                rw [f2, dictGet_remove, if_pos rfl]
            · exact e3 x hxt
      | present =>
          have hstep : cleanupStep ⟨ms, fss, none⟩ a = ⟨ms.remove a, unlinkFS fss a, none⟩ := by
            simp [cleanupStep, hfs]
          rw [List.cons_append, List.foldl_cons, hstep]
          have hok3 : ∀ p ∈ t, unlinkFS fss a p ≠ .locked := by
            intro p hp
            unfold unlinkFS
            by_cases hpa : p = a
            · simp [hpa]
            · simp [hpa]; exact hok2 p hp
          have hq2 : unlinkFS fss a q = .locked := by
            unfold unlinkFS
            have hqa : q ≠ a := fun hc => by rw [hc] at hq; exact hfa hq
            simp [hqa, hq]
          obtain ⟨e1, e2, e3⟩ := cleanup_foldl_fail t q l2 (ms.remove a) (unlinkFS fss a) hok3 hq2
          refine ⟨e1, ?_, ?_⟩
          · intro x hx
            have hxa : x ≠ a := fun hc => hx (hc ▸ List.mem_cons_self a t)
            have hxt : x ∉ t := fun hc => hx (List.mem_cons_of_mem a hc)
            obtain ⟨f1, f2⟩ := e2 x hxt
            constructor
            · rw [f1]; unfold unlinkFS; rw [if_neg hxa]
            · rw [f2, dictGet_remove, if_neg hxa]
          · intro x hx
            rcases List.mem_cons.mp hx with hxa | hxt
            · subst hxa
              by_cases hxt : x ∈ t
              · exact e3 x hxt
              · obtain ⟨f1, f2⟩ := e2 x hxt
                constructor
                · rw [f1]; unfold unlinkFS; rw [if_pos rfl]
                · rw [f2, dictGet_remove, if_pos rfl]
            · exact e3 x hxt

theorem mem_sortedOrphans (m : Manifest) (expected : List String) (p : String) :
    p ∈ sortedOrphans m expected ↔ isOrphan m expected p := by
  unfold sortedOrphans sortStrings isOrphan
  rw [(List.perm_insertionSort strLe _).mem_iff, List.mem_filter]
  simp

/-! ## Claim C5: orphan GC removes exactly the orphan set -/

/-- Claim C5: when every orphan file is deletable, `cleanup_orphans` removes
exactly the orphans — identities that are tracked, not expected and not virtual
markers: each orphan ends with no file on disk and no manifest entry; every
other identity keeps its manifest entry and its on-disk state unchanged, and
the loop raises nothing. -/
theorem cleanup_orphans_exact (m : Manifest) (expected : List String) (fs : FS)
    (hok : ∀ p ∈ sortedOrphans m expected, fs p ≠ .locked) :
    (cleanup_orphans m expected fs).err = none ∧
    (∀ p, isOrphan m expected p →
      dictGet (cleanup_orphans m expected fs).manifest.entries p = none ∧
      (cleanup_orphans m expected fs).fs p = .absent) ∧
    (∀ p, ¬ isOrphan m expected p →
      dictGet (cleanup_orphans m expected fs).manifest.entries p = dictGet m.entries p ∧
      (cleanup_orphans m expected fs).fs p = fs p) := by
  obtain ⟨e1, e2, e3, _, _⟩ := cleanup_foldl_ok (sortedOrphans m expected) m fs hok
  refine ⟨e1, ?_, ?_⟩
  · intro p hp
    have hpm : p ∈ sortedOrphans m expected := (mem_sortedOrphans m expected p).mpr hp
    exact ⟨by rw [show dictGet (cleanup_orphans m expected fs).manifest.entries p =
        dictGet ((sortedOrphans m expected).foldl cleanupStep ⟨m, fs, none⟩).manifest.entries p
        from rfl, e3 p, if_pos hpm],
      by rw [show (cleanup_orphans m expected fs).fs p =
        ((sortedOrphans m expected).foldl cleanupStep ⟨m, fs, none⟩).fs p from rfl,
        e2 p, if_pos hpm]⟩
  · intro p hp
    have hpm : p ∉ sortedOrphans m expected := fun hc =>
      hp ((mem_sortedOrphans m expected p).mp hc)
    exact ⟨by rw [show dictGet (cleanup_orphans m expected fs).manifest.entries p =
        dictGet ((sortedOrphans m expected).foldl cleanupStep ⟨m, fs, none⟩).manifest.entries p
        from rfl, e3 p, if_neg hpm],
      by rw [show (cleanup_orphans m expected fs).fs p =
        ((sortedOrphans m expected).foldl cleanupStep ⟨m, fs, none⟩).fs p from rfl,
        e2 p, if_neg hpm]⟩

/-- Claim C5 witness: the scenario named in the spec — entries
`p1, p2, p3, _marker` with `expected = [p2]` — deletes exactly `p1` and `p3`
(entries and files) and leaves `p2` and `_marker` untouched. -/
theorem cleanup_orphans_exact_witness :
    (∀ p ∈ sortedOrphans gc_manifest ["p2"], gc_fs p ≠ .locked) ∧
    (cleanup_orphans gc_manifest ["p2"] gc_fs).err = none ∧
    dictGet (cleanup_orphans gc_manifest ["p2"] gc_fs).manifest.entries "p1" = none ∧
    (cleanup_orphans gc_manifest ["p2"] gc_fs).fs "p1" = .absent ∧
    dictGet (cleanup_orphans gc_manifest ["p2"] gc_fs).manifest.entries "p3" = none ∧
    (cleanup_orphans gc_manifest ["p2"] gc_fs).fs "p3" = .absent ∧
    dictGet (cleanup_orphans gc_manifest ["p2"] gc_fs).manifest.entries "p2" =
      dictGet gc_manifest.entries "p2" ∧
    (cleanup_orphans gc_manifest ["p2"] gc_fs).fs "p2" = gc_fs "p2" ∧
    dictGet (cleanup_orphans gc_manifest ["p2"] gc_fs).manifest.entries "_marker" =
      dictGet gc_manifest.entries "_marker" ∧
    (cleanup_orphans gc_manifest ["p2"] gc_fs).fs "_marker" = gc_fs "_marker" :=
  ⟨by decide,
   (cleanup_orphans_exact gc_manifest ["p2"] gc_fs (by decide)).1,
   ((cleanup_orphans_exact gc_manifest ["p2"] gc_fs (by decide)).2.1 "p1" (by decide)).1,
   ((cleanup_orphans_exact gc_manifest ["p2"] gc_fs (by decide)).2.1 "p1" (by decide)).2,
   ((cleanup_orphans_exact gc_manifest ["p2"] gc_fs (by decide)).2.1 "p3" (by decide)).1,
   ((cleanup_orphans_exact gc_manifest ["p2"] gc_fs (by decide)).2.1 "p3" (by decide)).2,
   ((cleanup_orphans_exact gc_manifest ["p2"] gc_fs (by decide)).2.2 "p2" (by decide)).1,
   ((cleanup_orphans_exact gc_manifest ["p2"] gc_fs (by decide)).2.2 "p2" (by decide)).2,
   ((cleanup_orphans_exact gc_manifest ["p2"] gc_fs (by decide)).2.2 "_marker" (by decide)).1,
   ((cleanup_orphans_exact gc_manifest ["p2"] gc_fs (by decide)).2.2 "_marker" (by decide)).2⟩

/-! ## Claim C7: what a failed deletion does to the loop -/

/-- Claim C7 counterexample: two orphans `a.csv` (whose deletion raises) and
`b.csv` (an ordinary file).  The failure on `a.csv` aborts the loop: the
exception propagates, and the remaining orphan `b.csv` keeps both its file and
its manifest entry — reconciliation of the remaining orphans does not continue,
contrary to the claim. -/
theorem cleanup_orphans_abort_counterexample :
    locked_fs "a.csv" = .locked ∧
    (cleanup_orphans locked_manifest [] locked_fs).err = some "a.csv" ∧
    dictGet (cleanup_orphans locked_manifest [] locked_fs).manifest.entries "b.csv" =
      some ⟨"h2", "t2"⟩ ∧
    (cleanup_orphans locked_manifest [] locked_fs).fs "b.csv" = .present := by
  refine ⟨rfl, ?_, ?_, ?_⟩ <;> decide

/-- Claim C7 amended: a failure to delete an orphan file aborts reconciliation
— the exception carries the failing path, and every orphan the sorted loop had
not yet reached (the failing one included) keeps its manifest entry and its
on-disk state.  The second half of the claim does hold: an entry is removed
only when its file was deleted successfully or was already absent, so every
removed entry ends with no file on disk. -/
theorem cleanup_orphans_failure_aborts (m : Manifest) (expected : List String) (fs : FS)
    (l1 : List String) (q : String) (l2 : List String)
    (hsplit : sortedOrphans m expected = l1 ++ q :: l2)
    (hok : ∀ p ∈ l1, fs p ≠ .locked)
    (hq : fs q = .locked) :
    (cleanup_orphans m expected fs).err = some q ∧
    (∀ x, x ∉ l1 →
      (cleanup_orphans m expected fs).fs x = fs x ∧
      dictGet (cleanup_orphans m expected fs).manifest.entries x = dictGet m.entries x) ∧
    (∀ x, dictGet m.entries x ≠ none →
      dictGet (cleanup_orphans m expected fs).manifest.entries x = none →
      (cleanup_orphans m expected fs).fs x = .absent) := by
  have hrw : cleanup_orphans m expected fs =
      (l1 ++ q :: l2).foldl cleanupStep ⟨m, fs, none⟩ := by
    unfold cleanup_orphans
    rw [hsplit]
  obtain ⟨e1, e2, e3⟩ := cleanup_foldl_fail l1 q l2 m fs hok hq
  rw [hrw]
  refine ⟨e1, e2, ?_⟩
  intro x hms hrem
  by_cases hx : x ∈ l1
  · exact (e3 x hx).1
  · exact absurd hrem (by rw [(e2 x hx).2]; exact hms)

/-- Claim C7 amended witness: the abort theorem applied to the two-orphan
scenario, with the failing orphan first in sorted order. -/
theorem cleanup_orphans_failure_aborts_witness :
    sortedOrphans locked_manifest [] = [] ++ "a.csv" :: ["b.csv"] ∧
    locked_fs "a.csv" = .locked ∧
    ((cleanup_orphans locked_manifest [] locked_fs).err = some "a.csv" ∧
      (cleanup_orphans locked_manifest [] locked_fs).fs "b.csv" = locked_fs "b.csv" ∧
      dictGet (cleanup_orphans locked_manifest [] locked_fs).manifest.entries "b.csv" =
        dictGet locked_manifest.entries "b.csv") :=
  ⟨by decide, rfl,
   (cleanup_orphans_failure_aborts locked_manifest [] locked_fs [] "a.csv" ["b.csv"]
      (by decide) (by decide) rfl).1,
   ((cleanup_orphans_failure_aborts locked_manifest [] locked_fs [] "a.csv" ["b.csv"]
      (by decide) (by decide) rfl).2.1 "b.csv" (by decide)).1,
   ((cleanup_orphans_failure_aborts locked_manifest [] locked_fs [] "a.csv" ["b.csv"]
      (by decide) (by decide) rfl).2.1 "b.csv" (by decide)).2⟩

/-! ## Claim C3: dependency chaining invalidates downstream -/

theorem map_ne_of_mem {α β : Type} (l : List α) (f g : α → β) (x : α)
    (hx : x ∈ l) (h : f x ≠ g x) : l.map f ≠ l.map g := by
  induction l with
  | nil => exact absurd hx (List.not_mem_nil x)
  | cons a t ih =>
      intro hc
      rw [List.map_cons, List.map_cons] at hc
      injection hc with h1 h2
      rcases List.mem_cons.mp hx with hxa | hxt
      · subst hxa; exact h h1
      · exact ih hxt h2

/-- Claim C3: `run_eval` fingerprints the recorded `hash_of` of each consumed
upstream identity (its effective input is a pure function of the manifest, not
of file contents).  When the recorded fingerprint of a consumed upstream
identity changes, the effective input changes, and whenever the resulting
fingerprint differs from the previously recorded downstream fingerprint, the
prior downstream entry is stale: `is_fresh` answers `false` for the new
fingerprint on every file system. -/
theorem run_eval_transitive_invalidation (m : Manifest) (eval_cfg : PyVal) (n_weights : Int)
    (weight_paths : List String) (p out h1 ts : String) (e : ManifestEntry)
    (hp : p ∈ weight_paths) (hne : out ≠ p)
    (hch : h1 ≠ m.hash_of p)
    (hstored : dictGet m.entries out = some e)
    (he : e.config_hash = run_eval_fingerprint eval_cfg n_weights weight_paths m) :
    run_eval_fingerprint eval_cfg n_weights weight_paths (m.record p h1 ts) =
      Manifest.config_hash
        (run_eval_effective_input eval_cfg n_weights weight_paths (m.record p h1 ts)) ∧
    run_eval_effective_input eval_cfg n_weights weight_paths (m.record p h1 ts) ≠
      run_eval_effective_input eval_cfg n_weights weight_paths m ∧
    (run_eval_fingerprint eval_cfg n_weights weight_paths (m.record p h1 ts) ≠
        run_eval_fingerprint eval_cfg n_weights weight_paths m →
      ∀ fs, (m.record p h1 ts).is_fresh out
        (run_eval_fingerprint eval_cfg n_weights weight_paths (m.record p h1 ts)) fs = false) := by
  refine ⟨rfl, ?_, ?_⟩
  · have hmaps : weight_paths.map (fun q => (q, PyVal.str ((m.record p h1 ts).hash_of q))) ≠
        weight_paths.map (fun q => (q, PyVal.str (m.hash_of q))) := by
      refine map_ne_of_mem weight_paths _ _ p hp ?_
      rw [hash_of_record, if_pos rfl]
      intro hc
      exact hch (PyVal.str.inj (congrArg Prod.snd hc))
    intro hc
    unfold run_eval_effective_input at hc
    injection hc with h1 hc2
    injection hc2 with h2 hc3
    injection hc3 with h3 _
    exact hmaps (PyVal.dict.inj (congrArg Prod.snd h3))
  · intro hfp fs
    unfold Manifest.is_fresh
    rw [dictGet_record, if_neg hne, hstored]
    have hbne : (e.config_hash !=
        run_eval_fingerprint eval_cfg n_weights weight_paths (m.record p h1 ts)) = true := by
      rw [he]
      exact bne_iff_ne.mpr (fun hc => hfp hc.symm)
    simp [hbne]

/-- Claim C3 witness: a concrete manifest in which the training output
`weights/hsa/seed-1.txt` was recorded with one fingerprint and the evaluation
output was recorded against it; rewriting the upstream fingerprint makes the
two evaluation fingerprints differ concretely (the SHA-256 evaluations are
carried out by the kernel), and the old evaluation entry is stale. -/
theorem run_eval_transitive_invalidation_witness :
    ("weights/hsa/seed-1.txt" ∈ chain_paths) ∧
    ("3333cccc4444dddd" ≠ chain_m.hash_of "weights/hsa/seed-1.txt") ∧
    (run_eval_fingerprint chain_eval_cfg 8 chain_paths
        (chain_m.record "weights/hsa/seed-1.txt" "3333cccc4444dddd" "t2") ≠
      run_eval_fingerprint chain_eval_cfg 8 chain_paths chain_m) ∧
    (chain_m.record "weights/hsa/seed-1.txt" "3333cccc4444dddd" "t2").is_fresh
        "results/eval_hsa.csv"
        (run_eval_fingerprint chain_eval_cfg 8 chain_paths
          (chain_m.record "weights/hsa/seed-1.txt" "3333cccc4444dddd" "t2")) emptyFS = false :=
  ⟨by decide, by decide, by decide,
   (run_eval_transitive_invalidation chain_m chain_eval_cfg 8 chain_paths
      "weights/hsa/seed-1.txt" "results/eval_hsa.csv" "3333cccc4444dddd" "t2"
      ⟨chain_fp0, "t1"⟩ (by decide) (by decide) (by decide) (by decide) (by decide)).2.2
    (by decide) emptyFS⟩

/-! ## Claim C9: expected outputs versus what the drivers record -/

theorem mem_run_eval_outputs (tag : String) (weight_paths : List String) (s : String)
    (h : s ∈ run_eval_outputs tag weight_paths) : s = "results/eval_" ++ tag ++ ".csv" := by
  unfold run_eval_outputs at h
  by_cases he : weight_paths.isEmpty
  · rw [if_pos he] at h
    exact absurd h (List.not_mem_nil s)
  · rw [if_neg he] at h
    simpa using h

theorem mem_ite_and (a b : Bool) (L : List String) (s : String)
    (h : s ∈ (if a && b then L else [])) : s ∈ (if a then L else []) := by
  cases a with
  | false => simpa using h
  | true =>
      cases b with
      | false => exact absurd (by simpa using h) (List.not_mem_nil s)
      | true => simpa using h

theorem map_isEmpty_false {α β : Type} (l : List α) (f : α → β) (h : l ≠ []) :
    (l.map f).isEmpty = false := by
  cases l with
  | nil => exact absurd rfl h
  | cons a t => rfl

/-- Claim C9 counterexample: under a configuration whose training-seed list is
empty (with the CES seeds falling back to it) and with zero random baselines,
`compute_expected_files` still contains `results/eval_hsa.csv`, but no stage
driver ever records that identity — `run_eval` returns before recording when
its weight list is empty.  So the expected set and the recorded set differ. -/
theorem expected_not_produced_on_empty_seeds :
    "results/eval_hsa.csv" ∈ compute_expected_files empty_seeds_cfg ∧
    "results/eval_hsa.csv" ∉ produced_files empty_seeds_cfg := by
  constructor
  · decide
  · decide

/-- Claim C9 amended: every identity a stage driver records is in
`compute_expected_files`; and under every configuration whose training seeds,
effective CES seeds and random-baseline count are nonzero, the recorded set
equals the expected set exactly.  With an empty seed list or zero baselines the
evaluation CSVs (and the consistency CSV) are expected but never recorded. -/
theorem produced_matches_expected (cfg : Config) :
    (∀ s ∈ produced_files cfg, s ∈ compute_expected_files cfg) ∧
    (cfg.training_seeds ≠ [] → cfg.ces_seeds.getD cfg.training_seeds ≠ [] →
      cfg.random_weights ≠ 0 →
      ∀ s, s ∈ produced_files cfg ↔ s ∈ compute_expected_files cfg) := by
  constructor
  · intro s hs
    unfold produced_files at hs
    unfold compute_expected_files
    simp only [List.mem_append] at hs ⊢
    have hH := mem_run_eval_outputs "hsa"
      (cfg.training_seeds.map (fun seed => "weights/hsa/seed-" ++ toString seed ++ ".txt")) s
    have hC := mem_run_eval_outputs "ces"
      ((cfg.ces_seeds.getD cfg.training_seeds).map
        (fun seed => "weights/ces/seed-" ++ toString seed ++ ".txt")) s
    have hR := mem_run_eval_outputs "random"
      ((List.range cfg.random_weights).map
        (fun i => "weights/baselines/random-" ++ format02 i ++ ".txt")) s
    have hK := mem_ite_and cfg.consistency
      (!(cfg.training_seeds.map
          (fun seed => "weights/hsa/seed-" ++ toString seed ++ ".txt")).isEmpty)
      ["results/consistency.csv"] s
    simp only [List.mem_cons, List.not_mem_nil, or_false] at hH hC hR ⊢
    tauto
  · intro hts hcs hrw s
    have h1 : (cfg.training_seeds.map
        (fun seed => "weights/hsa/seed-" ++ toString seed ++ ".txt")).isEmpty = false :=
      map_isEmpty_false _ _ hts
    have h2 : ((cfg.ces_seeds.getD cfg.training_seeds).map
        (fun seed => "weights/ces/seed-" ++ toString seed ++ ".txt")).isEmpty = false :=
      map_isEmpty_false _ _ hcs
    have h3 : ((List.range cfg.random_weights).map
        (fun i => "weights/baselines/random-" ++ format02 i ++ ".txt")).isEmpty = false := by
      apply map_isEmpty_false
      intro hc
      exact hrw (by simpa using congrArg List.length hc)
    have heq : produced_files cfg = compute_expected_files cfg := by
      simp only [produced_files, compute_expected_files, run_eval_outputs]
      rw [h1, h2, h3]
      simp only [Bool.not_false, Bool.and_true, if_false, Bool.false_eq_true, ite_false]
      simp only [List.append_assoc, List.singleton_append, List.cons_append]
      rfl
    rw [heq]

/-- Claim C9 amended witness: with both seed lists nonempty and two baselines,
the recorded and expected sets agree (shown here at the evaluation CSV the
counterexample used). -/
theorem produced_matches_expected_witness :
    full_cfg.training_seeds ≠ [] ∧ full_cfg.ces_seeds.getD full_cfg.training_seeds ≠ [] ∧
    full_cfg.random_weights ≠ 0 ∧
    ("results/eval_hsa.csv" ∈ produced_files full_cfg ↔
      "results/eval_hsa.csv" ∈ compute_expected_files full_cfg) :=
  ⟨by decide, by decide, by decide,
   (produced_matches_expected full_cfg).2 (by decide) (by decide) (by decide)
     "results/eval_hsa.csv"⟩

/-! ## Claim C10: timestamps are metadata only -/

theorem view_dictGet : ∀ (e1 e2 : List (String × ManifestEntry)),
    e1.map (fun p => (p.1, p.2.config_hash)) = e2.map (fun p => (p.1, p.2.config_hash)) →
    ∀ q, (dictGet e1 q).isSome = (dictGet e2 q).isSome ∧
      (dictGet e1 q).map (fun e => e.config_hash) = (dictGet e2 q).map (fun e => e.config_hash)
  | [], [], _, q => ⟨rfl, rfl⟩
  | [], b :: t2, h, q => by simp at h
  | a :: t1, [], h, q => by simp at h
  | a :: t1, b :: t2, h, q => by
      rw [List.map_cons, List.map_cons] at h
      injection h with h1 h2
      rw [Prod.mk.injEq] at h1
      obtain ⟨hk, hh⟩ := h1
      rw [dictGet_cons, dictGet_cons, hk]
      by_cases hq : b.1 = q
      · simp [hq, hh]
      · rw [if_neg hq, if_neg hq]
        exact view_dictGet t1 t2 h2 q

theorem sameView_is_fresh (m1 m2 : Manifest) (h : sameView m1 m2) (p eh : String) (fs : FS) :
    m1.is_fresh p eh fs = m2.is_fresh p eh fs := by
  obtain ⟨_, _, he⟩ := h
  obtain ⟨hs, hm⟩ := view_dictGet m1.entries m2.entries he p
  unfold Manifest.is_fresh
  cases h1 : dictGet m1.entries p with
  | none =>
      cases h2 : dictGet m2.entries p with
      | none => rfl
      | some e2 => rw [h1, h2] at hs; simp at hs
  | some e1 =>
      cases h2 : dictGet m2.entries p with
      | none => rw [h1, h2] at hs; simp at hs
      | some e2 =>
          rw [h1, h2] at hm
          simp only [Option.map_some'] at hm
          have hch : e1.config_hash = e2.config_hash := Option.some.inj hm
          show (if (e1.config_hash != eh) = true then false else fsExists fs p) =
            (if (e2.config_hash != eh) = true then false else fsExists fs p)
          rw [hch]

theorem sameView_hash_of (m1 m2 : Manifest) (h : sameView m1 m2) (p : String) :
    m1.hash_of p = m2.hash_of p := by
  obtain ⟨_, _, he⟩ := h
  obtain ⟨hs, hm⟩ := view_dictGet m1.entries m2.entries he p
  unfold Manifest.hash_of
  cases h1 : dictGet m1.entries p with
  | none =>
      cases h2 : dictGet m2.entries p with
      | none => rfl
      | some e2 => rw [h1, h2] at hs; simp at hs
  | some e1 =>
      cases h2 : dictGet m2.entries p with
      | none => rw [h1, h2] at hs; simp at hs
      | some e2 =>
          rw [h1, h2] at hm
          simp only [Option.map_some'] at hm
          show e1.config_hash = e2.config_hash
          exact Option.some.inj hm

theorem view_filter : ∀ (e1 e2 : List (String × ManifestEntry)) (p : String),
    e1.map (fun r => (r.1, r.2.config_hash)) = e2.map (fun r => (r.1, r.2.config_hash)) →
    (e1.filter (fun r => !(r.1 == p))).map (fun r => (r.1, r.2.config_hash)) =
      (e2.filter (fun r => !(r.1 == p))).map (fun r => (r.1, r.2.config_hash))
  | [], [], _, _ => rfl
  | [], b :: t2, p, h => by simp at h
  | a :: t1, [], p, h => by simp at h
  | a :: t1, b :: t2, p, h => by
      rw [List.map_cons, List.map_cons] at h
      injection h with h1 h2
      have hk : a.1 = b.1 := by
        rw [Prod.mk.injEq] at h1
        exact h1.1
      rw [List.filter_cons, List.filter_cons, hk]
      by_cases hp : (!(b.1 == p)) = true
      · rw [if_pos hp, if_pos hp, List.map_cons, List.map_cons, h1,
          view_filter t1 t2 p h2]
      · rw [if_neg hp, if_neg hp]
        exact view_filter t1 t2 p h2

theorem sameView_remove (m1 m2 : Manifest) (h : sameView m1 m2) (p : String) :
    sameView (m1.remove p) (m2.remove p) :=
  ⟨h.1, h.2.1, view_filter m1.entries m2.entries p h.2.2⟩

theorem view_keys (e1 e2 : List (String × ManifestEntry))
    (h : e1.map (fun r => (r.1, r.2.config_hash)) = e2.map (fun r => (r.1, r.2.config_hash))) :
    e1.map Prod.fst = e2.map Prod.fst := by
  have := congrArg (List.map Prod.fst) h
  simpa [List.map_map, Function.comp] using this

theorem sameView_sortedOrphans (m1 m2 : Manifest) (h : sameView m1 m2)
    (expected : List String) : sortedOrphans m1 expected = sortedOrphans m2 expected := by
  unfold sortedOrphans
  rw [view_keys m1.entries m2.entries h.2.2]

theorem view_cleanup_fold : ∀ (l : List String) (ms1 ms2 : Manifest) (fss : FS)
    (er : Option String), sameView ms1 ms2 →
    ((l.foldl cleanupStep ⟨ms1, fss, er⟩).err = (l.foldl cleanupStep ⟨ms2, fss, er⟩).err ∧
     (l.foldl cleanupStep ⟨ms1, fss, er⟩).fs = (l.foldl cleanupStep ⟨ms2, fss, er⟩).fs ∧
     sameView (l.foldl cleanupStep ⟨ms1, fss, er⟩).manifest
       (l.foldl cleanupStep ⟨ms2, fss, er⟩).manifest)
  | [], ms1, ms2, fss, er, h => ⟨rfl, rfl, h⟩
  | a :: t, ms1, ms2, fss, er, h => by
      rw [List.foldl_cons, List.foldl_cons]
      cases er with
      | some e =>
          rw [show cleanupStep ⟨ms1, fss, some e⟩ a = ⟨ms1, fss, some e⟩ by
                simp [cleanupStep],
              show cleanupStep ⟨ms2, fss, some e⟩ a = ⟨ms2, fss, some e⟩ by
                simp [cleanupStep]]
          exact view_cleanup_fold t ms1 ms2 fss (some e) h
      | none =>
          cases hfa : fss a with
          | locked =>
              rw [show cleanupStep ⟨ms1, fss, none⟩ a = ⟨ms1, fss, some a⟩ by
                    simp [cleanupStep, hfa],
                  show cleanupStep ⟨ms2, fss, none⟩ a = ⟨ms2, fss, some a⟩ by
                    simp [cleanupStep, hfa]]
              exact view_cleanup_fold t ms1 ms2 fss (some a) h
          | present =>
              rw [show cleanupStep ⟨ms1, fss, none⟩ a = ⟨ms1.remove a, unlinkFS fss a, none⟩ by
                    simp [cleanupStep, hfa],
                  show cleanupStep ⟨ms2, fss, none⟩ a = ⟨ms2.remove a, unlinkFS fss a, none⟩ by
                    simp [cleanupStep, hfa]]
              exact view_cleanup_fold t (ms1.remove a) (ms2.remove a) (unlinkFS fss a) none
                (sameView_remove ms1 ms2 h a)
          | absent =>
              rw [show cleanupStep ⟨ms1, fss, none⟩ a = ⟨ms1.remove a, fss, none⟩ by
                    simp [cleanupStep, hfa],
                  show cleanupStep ⟨ms2, fss, none⟩ a = ⟨ms2.remove a, fss, none⟩ by
                    simp [cleanupStep, hfa]]
              exact view_cleanup_fold t (ms1.remove a) (ms2.remove a) fss none
                (sameView_remove ms1 ms2 h a)

/-- Claim C10: the `produced_at` timestamps never influence a cache decision.
For any two manifests agreeing on version, engine fingerprint, entry keys and
entry fingerprints — with arbitrary timestamps — `is_fresh`, `hash_of` and
`cleanup_orphans` behave identically: same answers, same file-system effects,
same error, and resulting manifests that again agree on everything but
timestamps. -/
theorem produced_at_never_influences (m1 m2 : Manifest) (h : sameView m1 m2) :
    (∀ p eh fs, m1.is_fresh p eh fs = m2.is_fresh p eh fs) ∧
    (∀ p, m1.hash_of p = m2.hash_of p) ∧
    (∀ expected fs,
      (cleanup_orphans m1 expected fs).err = (cleanup_orphans m2 expected fs).err ∧
      (cleanup_orphans m1 expected fs).fs = (cleanup_orphans m2 expected fs).fs ∧
      sameView (cleanup_orphans m1 expected fs).manifest
        (cleanup_orphans m2 expected fs).manifest) := by
  refine ⟨fun p eh fs => sameView_is_fresh m1 m2 h p eh fs,
    fun p => sameView_hash_of m1 m2 h p, fun expected fs => ?_⟩
  unfold cleanup_orphans
  rw [sameView_sortedOrphans m1 m2 h expected]
  exact view_cleanup_fold (sortedOrphans m2 expected) m1 m2 fs none h

/-- Claim C10 witness: two concrete manifests that differ only in their
timestamps make identical decisions. -/
theorem produced_at_never_influences_witness :
    sameView ts_m1 ts_m2 ∧
    ts_m1.is_fresh "a" "h1" emptyFS = ts_m2.is_fresh "a" "h1" emptyFS ∧
    ts_m1.hash_of "b" = ts_m2.hash_of "b" ∧
    (cleanup_orphans ts_m1 [] emptyFS).err = (cleanup_orphans ts_m2 [] emptyFS).err :=
  ⟨by decide,
   (produced_at_never_influences ts_m1 ts_m2 (by decide)).1 "a" "h1" emptyFS,
   (produced_at_never_influences ts_m1 ts_m2 (by decide)).2.1 "b",
   ((produced_at_never_influences ts_m1 ts_m2 (by decide)).2.2 [] emptyFS).1⟩
